import Mathlib

/-!
# Verification of `wallet_dump_masterkey`

A shallow embedding of `src/tools/wallet_dump_masterkey.cpp` and of the
wallet-library collaborators it calls (which are part of the repository but
not of the provided source tree: those are modelled from the specification).

Bytes are modelled as `Nat` values, with `% 256` applied wherever the
machine byte would wrap; byte strings are `List Nat`.
-/

namespace WalletDump

/-- A list of naturals is a well-formed byte string when every entry fits
in one byte. -/
def ByteList (xs : List Nat) : Prop := ∀ b ∈ xs, b < 256

instance (xs : List Nat) : Decidable (ByteList xs) := by
  unfold ByteList; infer_instance

/-! ## Symmetric cipher

Modelled from the spec: the wallet's symmetric cipher (AES-256-CBC in the
wallet library, outside the provided sources) is modelled as a concrete
byte-wise keyed cipher with a 32-byte key and a 16-byte IV, together with
one block of padding, keeping the spec's stated interface: decryption with
the encrypting key inverts encryption, and the ciphertext is one block
longer than the plaintext. -/

/-- Keystream byte at position `i` for a 32-byte key and 16-byte IV. -/
def keystream (key iv : List Nat) (i : Nat) : Nat :=
  key.getD (i % 32) 0 + iv.getD (i % 16) 0

/-- Encrypt a byte string: add the keystream byte-wise, mod 256. -/
def vigEncrypt (key iv xs : List Nat) : List Nat :=
  (List.range xs.length).map fun i => (xs.getD i 0 + keystream key iv i) % 256

/-- Decrypt a byte string: subtract the keystream byte-wise, mod 256. -/
def vigDecrypt (key iv xs : List Nat) : List Nat :=
  (List.range xs.length).map fun i =>
    (xs.getD i 0 + 256 - keystream key iv i % 256) % 256

/-- Block-cipher padding (block size 16): append `n` bytes of value `n`,
where `n` is the distance to the next block boundary. -/
def padBlock (xs : List Nat) : List Nat :=
  xs ++ List.replicate (16 - xs.length % 16) (16 - xs.length % 16)

/-- Padding validation and removal: the last byte `n` must lie in `1..16`
and the last `n` bytes must all equal `n`. -/
def unpadBlock (xs : List Nat) : Option (List Nat) :=
  match xs.getLast? with
  | none => none
  | some n =>
    if 1 ≤ n ∧ n ≤ 16 ∧ n ≤ xs.length ∧ ∀ b ∈ xs.drop (xs.length - n), b = n then
      some (xs.take (xs.length - n))
    else none

/-- Modelled from the spec: symmetric encryption of a private-key plaintext
(pad to a block boundary, then apply the keyed cipher). -/
def EncryptSecret (key iv plain : List Nat) : List Nat :=
  vigEncrypt key iv (padBlock plain)

/-- Modelled from the spec: symmetric decryption with padding/integrity
validation; returns `none` when the padding check fails. -/
def DecryptSecret (key iv cipher : List Nat) : Option (List Nat) :=
  unpadBlock (vigDecrypt key iv cipher)

/-! ## Keys, public keys, key identifiers -/

/-- Modelled from the spec: derivation of a public key from a private
scalar (elliptic-curve point multiplication in the key library, outside the
provided sources), modelled as a tag byte (`2` when compressed, `4` when
uncompressed, as in the serialized point formats) followed by the scalar. -/
def derivePubKey (secret : List Nat) (compressed : Bool) : List Nat :=
  (if compressed then 2 else 4) :: secret

/-- Whether a stored public key is marked compressed (leading tag byte 2). -/
def isCompressedPub (pub : List Nat) : Bool := pub.head? == some 2

/-- Modelled from the spec: check that a recovered private scalar's
corresponding public key matches the stored public key. -/
def verifyPubKey (secret pub : List Nat) : Bool :=
  pub == derivePubKey secret true || pub == derivePubKey secret false

/-- Modelled from the spec: the fixed-length (20-byte) hash of a public
key used as the key identifier. -/
def hash160 (pub : List Nat) : List Nat :=
  ((pub.map (fun b => (b * 31 + 7) % 256)) ++ List.replicate 20 0).take 20

/-- Modelled from the spec: the per-key initialization vector, derived
deterministically from the public key. -/
def deriveIV (pub : List Nat) : List Nat :=
  ((pub.map (fun b => (b * 17 + 3) % 256)) ++ List.replicate 16 0).take 16

/-! ## Keystore records -/

/-- An encrypted key record: the stored public key and the ciphertext of
the private scalar (spec §3, `EncryptedKeyRecord`). -/
structure EncryptedKeyRecord where
  pubkey : List Nat
  ciphertext : List Nat
deriving DecidableEq

/-- Key identifier of a record: hash of its stored public key. -/
def keyIdOf (r : EncryptedKeyRecord) : List Nat := hash160 r.pubkey

/-- The in-memory keystore: the set of encrypted key records owned by one
`ScriptPubKeyMan` (spec §3, `KeyStore`). -/
structure KeyStore where
  cryptedKeys : List EncryptedKeyRecord
deriving DecidableEq

/-- Build the record for a scalar `secret` (with compression flag `c`)
encrypted under master key `key`: the stored public key is derived from
the scalar, the IV from the public key. -/
def mkRecord (key secret : List Nat) (c : Bool) : EncryptedKeyRecord :=
  let pub := derivePubKey secret c
  { pubkey := pub, ciphertext := EncryptSecret key (deriveIV pub) secret }

/-- A valid 32-byte key or scalar. -/
def validKey (k : List Nat) : Prop := k.length = 32 ∧ ByteList k

instance (k : List Nat) : Decidable (validKey k) := by
  unfold validKey; infer_instance

/-- The store's records were all produced by encrypting valid 32-byte
scalars under master key `key`. -/
def encryptedUnder (key : List Nat) (store : KeyStore) : Prop :=
  ∀ r ∈ store.cryptedKeys, ∃ s c, validKey s ∧ r = mkRecord key s c

/-! ## Decryption verifier -/

/-- Decrypt-and-verify one record with candidate master key `mk`:
the ciphertext must decrypt with valid padding and the recovered scalar's
public key must match the stored one. -/
def checkRecord (mk : List Nat) (r : EncryptedKeyRecord) : Bool :=
  match DecryptSecret mk (deriveIV r.pubkey) r.ciphertext with
  | none => false
  | some s => verifyPubKey s r.pubkey

/-- Modelled from the spec: `CheckDecryptionKey` (the Decryption Verifier,
spec §4.2): with no encrypted records the key is accepted exactly when
`accept_no_keys` holds; otherwise every record must decrypt and verify. -/
def CheckDecryptionKey (spk : KeyStore) (mk : List Nat)
    (accept_no_keys : Bool) : Bool :=
  if spk.cryptedKeys.isEmpty then accept_no_keys
  else spk.cryptedKeys.all (checkRecord mk)

/-! ## Key identifier ordering (`std::set<CKeyID>` iterates in ascending
byte order: `base_blob::Compare` is a `memcmp` over the byte array) -/

/-- Byte-lexicographic order on byte strings (`memcmp`-style; a proper
prefix sorts first). -/
def lexLe : List Nat → List Nat → Bool
  | [], _ => true
  | _ :: _, [] => false
  | a :: as, b :: bs => if a < b then true else if a = b then lexLe as bs else false

/-- Insert into a `lexLe`-sorted list, keeping it sorted. -/
def insertLex (x : List Nat) : List (List Nat) → List (List Nat)
  | [] => [x]
  | y :: ys => if lexLe x y then x :: y :: ys else y :: insertLex x ys

/-- Insertion sort by `lexLe`. -/
def sortLex (l : List (List Nat)) : List (List Nat) :=
  l.foldr insertLex []

/-- Modelled from the spec: `GetKeys` — the set of key identifiers of the
store, iterated in ascending byte order and without duplicates (the
`std::set<CKeyID>` of the wallet library). -/
def GetKeys (spk : KeyStore) : List (List Nat) :=
  sortLex ((spk.cryptedKeys.map keyIdOf).dedup)

/-- Modelled from the spec: the private scalars from which the curve
library can actually derive a point at export time (spec §4.3 — the
re-derivation step, as opposed to the Verifier's stored-identity match of
spec §4.2).  Modelled as: the all-zero scalar (which has no corresponding
public key on the curve) is not derivable. -/
def scalarDerivable (s : List Nat) : Bool := !s.all (fun b => b == 0)

/-- Modelled from the spec: re-derivation of the public-key object from a
recovered private scalar during export (spec §4.3); fails — an internal
inconsistency of the store — when no point can be derived from the
scalar, even though the record passed the Verifier's stored-identity
check. -/
def rederivePubKey (s : List Nat) (compressed : Bool) : Option (List Nat) :=
  if scalarDerivable s then some (derivePubKey s compressed) else none

/-- Modelled from the spec: `GetKey` — retrieve and decrypt the private
key for one key identifier; fails when the identifier is absent, the
record does not decrypt, the recovered scalar does not match the stored
public key, or the public key cannot be re-derived from the scalar
(spec §4.3, internal inconsistency). -/
def GetKey (spk : KeyStore) (mk kid : List Nat) :
    Option (List Nat × Bool) :=
  match spk.cryptedKeys.find? (fun r => keyIdOf r == kid) with
  | none => none
  | some r =>
    match DecryptSecret mk (deriveIV r.pubkey) r.ciphertext with
    | none => none
    | some s =>
      if verifyPubKey s r.pubkey then
        match rederivePubKey s (isCompressedPub r.pubkey) with
        | none => none
        | some _ => some (s, isCompressedPub r.pubkey)
      else none

/-- The Decryption Verifier contract of spec §4.2: `none` is the `WrongKey`
failure; on success, the mapping from each key identifier to its decoded
private key. -/
def verify_and_decrypt (spk : KeyStore) (mk : List Nat)
    (accept_no_keys : Bool) : Option (List (List Nat × List Nat × Bool)) :=
  if CheckDecryptionKey spk mk accept_no_keys then
    some ((GetKeys spk).filterMap fun kid =>
      (GetKey spk mk kid).map fun sk => (kid, sk))
  else none

/-! ## Positional number systems (for the base-58 and hex codecs)

`toLEDigits` is fuel-bounded so that it is structurally recursive (the
fuel bounds the number of digits; every use below supplies enough fuel for
the byte strings involved). -/

/-- Little-endian digit expansion of `n` in base `base`, emitting at most
`fuel` digits and stopping at zero (so no trailing zero digits). -/
def toLEDigits (base : Nat) : Nat → Nat → List Nat
  | 0, _ => []
  | fuel + 1, n => if n = 0 then [] else n % base :: toLEDigits base fuel (n / base)

/-- Value of a little-endian digit string in base `base`. -/
def fromLEDigits (base : Nat) (ds : List Nat) : Nat :=
  ds.foldr (fun d acc => d + base * acc) 0

/-- Value of a big-endian byte string. -/
def bytesToNatBE (xs : List Nat) : Nat := fromLEDigits 256 xs.reverse

/-- Minimal big-endian byte string of `n` (for `n < 256 ^ 40`). -/
def natToBytesBE (n : Nat) : List Nat := (toLEDigits 256 40 n).reverse

/-! ## Base-58-check and the WIF secret-key codec

Modelled from the spec: `EncodeSecret` / `DecodeSecret` and the base-58
codec live in the key-encoding library, outside the provided sources; the
byte layout is the one given in spec §6. -/

/-- The base-58 alphabet. -/
def b58Alphabet : List Char :=
  "123456789ABCDEFGHJKLMNPQRSTUVWXYZabcdefghijkmnopqrstuvwxyz".data

/-- Character of a base-58 digit. -/
def b58Char (d : Nat) : Char := b58Alphabet.getD d '?'

/-- Digit value of a base-58 character, `none` for characters outside the
alphabet. -/
def b58Val (c : Char) : Option Nat :=
  let i := b58Alphabet.findIdx (· == c)
  if i < 58 then some i else none

/-- Modelled from the spec: base-58 encoding — leading zero bytes become
leading `1` characters; the rest is the big-endian base-58 expansion of
the value of the byte string. -/
def EncodeBase58 (xs : List Nat) : String :=
  String.mk (List.replicate (xs.takeWhile (· = 0)).length '1' ++
    ((toLEDigits 58 64 (bytesToNatBE xs)).reverse.map b58Char))

/-- Modelled from the spec: base-58 decoding — inverse of `EncodeBase58`;
fails when a character is outside the alphabet. -/
def DecodeBase58 (s : String) : Option (List Nat) :=
  if (s.data.drop (s.data.takeWhile (· = '1')).length).all
      (fun c => (b58Val c).isSome) then
    some (List.replicate (s.data.takeWhile (· = '1')).length 0 ++
      natToBytesBE (fromLEDigits 58
        ((s.data.drop (s.data.takeWhile (· = '1')).length).filterMap b58Val).reverse))
  else none

/-- Modelled from the spec: the double hash underlying the checksum (the
double-SHA256 of the wallet library, outside the provided sources,
modelled as a deterministic 32-bit byte fold). -/
def hashFold (xs : List Nat) : Nat :=
  xs.foldl (fun a b => (a * 257 + b + 1) % 4294967296) 1

/-- Modelled from the spec: the 4-byte double-hash checksum over a byte
string (the first four bytes of the double hash, big-endian). -/
def checksum4 (xs : List Nat) : List Nat :=
  [hashFold xs / 16777216 % 256, hashFold xs / 65536 % 256,
   hashFold xs / 256 % 256, hashFold xs % 256]

/-- Base-58-check encoding: append the 4-byte checksum, then base-58. -/
def EncodeBase58Check (payload : List Nat) : String :=
  EncodeBase58 (payload ++ checksum4 payload)

/-- Base-58-check decoding: base-58 decode, verify and strip the trailing
4-byte checksum. -/
def DecodeBase58Check (s : String) : Option (List Nat) :=
  match DecodeBase58 s with
  | none => none
  | some data =>
    if data.length < 4 then none
    else if data.drop (data.length - 4) = checksum4 (data.take (data.length - 4))
    then some (data.take (data.length - 4))
    else none

/-- Modelled from the spec: `EncodeSecret` — WIF encoding of a private
key: network version byte, the 32-byte scalar, an optional `0x01`
compression flag, base-58-check encoded (spec §6). -/
def EncodeSecret (version : Nat) (secret : List Nat) (compressed : Bool) :
    String :=
  EncodeBase58Check (version :: secret ++ (if compressed then [1] else []))

/-- Modelled from the spec: `DecodeSecret` — inverse of `EncodeSecret`:
base-58-check decode, check the version byte, and read the 32-byte scalar
and the optional compression flag. -/
def DecodeSecret (version : Nat) (s : String) : Option (List Nat × Bool) :=
  match DecodeBase58Check s with
  | none => none
  | some [] => none
  | some (v :: rest) =>
    if v = version then
      if rest.length = 32 then some (rest, false)
      else if rest.length = 33 ∧ rest.getLast? = some 1 then
        some (rest.take 32, true)
      else none
    else none

/-! ## Hex display and hex parsing -/

/-- Lower-case hex digit of a nibble. -/
def hexChar (n : Nat) : Char := "0123456789abcdef".data.getD n 'x'

/-- Two-character lower-case hex rendering of a byte. -/
def hexByte (b : Nat) : String := String.mk [hexChar (b / 16 % 16), hexChar (b % 16)]

/-- Modelled from the spec: `CKeyID::ToString` — `base_blob::ToString`
prints the bytes of the blob in reverse order, in lower-case hex. -/
def keyIdToString (kid : List Nat) : String :=
  String.join (kid.reverse.map hexByte)

/-- Value of a hex digit character, `none` for non-hex characters. -/
def hexDigitVal (c : Char) : Option Nat :=
  if '0' ≤ c ∧ c ≤ '9' then some (c.toNat - '0'.toNat)
  else if 'a' ≤ c ∧ c ≤ 'f' then some (c.toNat - 'a'.toNat + 10)
  else if 'A' ≤ c ∧ c ≤ 'F' then some (c.toNat - 'A'.toNat + 10)
  else none

/-- Modelled from the spec: the hex-to-bytes helper `ParseHex` of the
utility library — skip spaces before each byte, then read pairs of hex
digits, stopping (and dropping any half-read byte) at the first non-hex
character.  Note that it does not fail on malformed input. -/
def parseHexChars : List Char → List Nat
  | [] => []
  | c1 :: rest =>
    if c1 = ' ' then parseHexChars rest
    else
      match hexDigitVal c1 with
      | none => []
      | some v1 =>
        match rest with
        | [] => []
        | c2 :: rest2 =>
          match hexDigitVal c2 with
          | none => []
          | some v2 => (v1 * 16 + v2) :: parseHexChars rest2

/-- `ParseHex` on a string. -/
def ParseHex (s : String) : List Nat := parseHexChars s.data

/-! ## The tool's program: `main` of `wallet_dump_masterkey.cpp` -/

/-- The loaded wallet, as seen through the two `ScriptPubKeyMan`
accessors used at lines 104–109 of the tool. -/
structure Wallet where
  legacy : Option KeyStore
  descriptor : Option KeyStore
deriving DecidableEq

/-- The tool's input: the command-line arguments after `argv[0]`, plus the
outcome of the external Keystore Reader (whether `wallet.dat` loaded, and
the loaded wallet's key managers). -/
structure ProgInput where
  args : List String
  loadOk : Bool
  wallet : Wallet
deriving DecidableEq

/-- Observable outcome of one run: exit code, the lines printed on the
standard output and error streams, and the final contents of the buffer
that held the master key (`vMasterKey`), empty when the key bytes were
never materialized. -/
structure RunResult where
  exitCode : Nat
  stdoutLines : List String
  stderrLines : List String
  masterKeyResidue : List Nat
deriving DecidableEq

/-- Modelled from the spec: `memory_cleanse` — deterministically overwrite
a buffer with zeros. -/
def memory_cleanse (buf : List Nat) : List Nat := List.replicate buf.length 0

/-- Lines 104–109: pick the `ScriptPubKeyMan`, legacy first, otherwise the
(external) descriptor one. -/
def selectSpkMan (w : Wallet) : Option KeyStore :=
  match w.legacy with
  | some s => some s
  | none => w.descriptor

/-- The regtest network's WIF version byte (`SelectParams(REGTEST)` at
line 37; `base58Prefixes[SECRET_KEY] = 239` on regtest). -/
def regtestSecretVersion : Nat := 239

def usageMsg : String :=
  "Usage: wallet_dump_masterkey <path-to-wallet-dat-dir> <64-hex-masterkey>"

def hexLenMsg : String := "Master key must be 64 hex chars (32 bytes)"

def loadFailMsg : String := "Could not load wallet"

def noSpkManMsg : String :=
  "No ScriptPubKeyMan found in wallet (unexpected for legacy wallet)"

def wrongKeyMsg : String := "Master key did NOT decrypt wallet keys (wrong key)"

def bannerMsg : String := "Master key accepted — dumping private keys (WIF):"

def doneMsg : String := "Done."

/-- The warning printed (line 134) when one key cannot be retrieved. -/
def warnLine (kid : List Nat) : String :=
  "Could not get private key for " ++ keyIdToString kid

/-- The per-key output line (line 140). -/
def keyLine (kid : List Nat) (sk : List Nat × Bool) : String :=
  "KeyID: " ++ keyIdToString kid ++ "  WIF: " ++
    EncodeSecret regtestSecretVersion sk.1 sk.2

/-- The key lines of the export loop (lines 130–141), in `GetKeys` order:
one line per key whose private key was retrieved. -/
def exportLines (spk : KeyStore) (mk : List Nat) : List String :=
  (GetKeys spk).filterMap fun kid => (GetKey spk mk kid).map (keyLine kid)

/-- The warnings of the export loop (lines 130–141), in `GetKeys` order:
one warning per key whose private key could not be retrieved. -/
def exportWarnings (spk : KeyStore) (mk : List Nat) : List String :=
  (GetKeys spk).filterMap fun kid =>
    if (GetKey spk mk kid).isSome then none else some (warnLine kid)

/-- Shallow embedding of `main` (lines 40–148 of
`wallet_dump_masterkey.cpp`).  The checks appear in source order: argument
count (42), master-key length (51), wallet load (92), `ScriptPubKeyMan`
lookup (111), `CheckDecryptionKey` (119), then the export loop (130–141)
and cleanup (144).  The C++ loop interleaves its two streams; here each
stream is collected separately, in loop order. -/
def runMain (inp : ProgInput) : RunResult :=
  match inp.args with
  | _datadir :: hexstr :: _ =>
    if hexstr.length ≠ 64 then
      { exitCode := 1, stdoutLines := [], stderrLines := [hexLenMsg],
        masterKeyResidue := [] }
    else if !inp.loadOk then
      { exitCode := 1, stdoutLines := [], stderrLines := [loadFailMsg],
        masterKeyResidue := [] }
    else
      let vMasterKey := ParseHex hexstr
      match selectSpkMan inp.wallet with
      | none =>
        { exitCode := 1, stdoutLines := [], stderrLines := [noSpkManMsg],
          masterKeyResidue := memory_cleanse vMasterKey }
      | some spk_man =>
        if !CheckDecryptionKey spk_man vMasterKey true then
          { exitCode := 2, stdoutLines := [], stderrLines := [wrongKeyMsg],
            masterKeyResidue := memory_cleanse vMasterKey }
        else
          { exitCode := 0,
            stdoutLines := bannerMsg :: exportLines spk_man vMasterKey ++ [doneMsg],
            stderrLines := exportWarnings spk_man vMasterKey,
            masterKeyResidue := memory_cleanse vMasterKey }
  | _ =>
    { exitCode := 1, stdoutLines := [], stderrLines := [usageMsg],
      masterKeyResidue := [] }

/-! ## Cipher lemmas -/

lemma vigEncrypt_length (k iv xs : List Nat) :
    (vigEncrypt k iv xs).length = xs.length := by
  simp [vigEncrypt]

lemma vigDecrypt_length (k iv xs : List Nat) :
    (vigDecrypt k iv xs).length = xs.length := by
  simp [vigDecrypt]

lemma vigEncrypt_getD (k iv xs : List Nat) (i : Nat) (h : i < xs.length) :
    (vigEncrypt k iv xs).getD i 0 = (xs.getD i 0 + keystream k iv i) % 256 := by
  rw [List.getD_eq_getElem _ _ (by simpa [vigEncrypt_length] using h)]
  simp [vigEncrypt]

lemma vigDecrypt_getD (k iv xs : List Nat) (i : Nat) (h : i < xs.length) :
    (vigDecrypt k iv xs).getD i 0 =
      (xs.getD i 0 + 256 - keystream k iv i % 256) % 256 := by
  rw [List.getD_eq_getElem _ _ (by simpa [vigDecrypt_length] using h)]
  simp [vigDecrypt]

lemma padBlock_length_32 (s : List Nat) (hs : s.length = 32) :
    (padBlock s).length = 48 := by
  simp [padBlock, hs]

lemma padBlock_getD_left (s : List Nat) (i : Nat) (h : i < s.length) :
    (padBlock s).getD i 0 = s.getD i 0 := by
  unfold padBlock
  rw [List.getD_eq_getElem _ _ (by simp; omega),
      List.getElem_append_left (by omega), List.getD_eq_getElem _ _ h]

/-- Inversion of a successful `unpadBlock`. -/
lemma unpadBlock_eq_some {xs p : List Nat} (hp : unpadBlock xs = some p) :
    ∃ n, xs.getLast? = some n ∧ 1 ≤ n ∧ n ≤ 16 ∧ n ≤ xs.length ∧
      p = xs.take (xs.length - n) := by
  rcases h : xs.getLast? with _ | n <;> rw [unpadBlock.eq_def, h] at hp
  · exact absurd hp (by simp)
  · have hp' : (if 1 ≤ n ∧ n ≤ 16 ∧ n ≤ xs.length ∧
        ∀ b ∈ xs.drop (xs.length - n), b = n then
        some (xs.take (xs.length - n)) else none) = some p := hp
    by_cases hc : 1 ≤ n ∧ n ≤ 16 ∧ n ≤ xs.length ∧
        ∀ b ∈ xs.drop (xs.length - n), b = n
    · rw [if_pos hc] at hp'
      exact ⟨n, rfl, hc.1, hc.2.1, hc.2.2.1, (Option.some.inj hp').symm⟩
    · rw [if_neg hc] at hp'
      exact absurd hp' (by simp)

/-- If the recovered scalar's public key matches a stored public key that
was derived from scalar `s`, the recovered scalar is `s` itself. -/
lemma verifyPubKey_derivePubKey {p s : List Nat} {c : Bool}
    (h : verifyPubKey p (derivePubKey s c) = true) : p = s := by
  unfold verifyPubKey derivePubKey at h
  cases c <;> simp [List.cons.injEq] at h <;> exact h.symm

/-- Core of the wrong-key rejection argument: a record built by
encrypting a valid 32-byte scalar under `K` never passes the
decrypt-and-verify check under a different valid 32-byte key `K2`. -/
lemma checkRecord_wrong_key (K K2 s : List Nat) (c : Bool)
    (hK : validKey K) (hK2 : validKey K2) (hs : validKey s)
    (hne : K ≠ K2) :
    checkRecord K2 (mkRecord K s c) = false := by
  obtain ⟨hKlen, hKb⟩ := hK
  obtain ⟨hK2len, hK2b⟩ := hK2
  obtain ⟨hslen, hsb⟩ := hs
  have hrec : checkRecord K2 (mkRecord K s c) =
      match DecryptSecret K2 (deriveIV (derivePubKey s c))
              (EncryptSecret K (deriveIV (derivePubKey s c)) s) with
      | none => false
      | some p => verifyPubKey p (derivePubKey s c) := rfl
  rw [hrec]
  set pub := derivePubKey s c with hpub
  set iv := deriveIV pub with hiv
  set cipher := EncryptSecret K iv s with hcipher
  have hclen : cipher.length = 48 := by
    rw [hcipher]; unfold EncryptSecret
    rw [vigEncrypt_length, padBlock_length_32 s hslen]
  set q := vigDecrypt K2 iv cipher with hq
  have hqlen : q.length = 48 := by rw [hq, vigDecrypt_length, hclen]
  rcases hD : DecryptSecret K2 iv cipher with _ | p
  · rfl
  show verifyPubKey p pub = false
  -- padding passed; show the pubkey check must fail
  have hD' : unpadBlock q = some p := hD
  obtain ⟨n, _hlast, hn1, hn16, hnle, hptake⟩ := unpadBlock_eq_some hD'
  cases hver : verifyPubKey p pub
  · rfl
  exfalso
  -- from the pubkey check, the recovered scalar equals `s`
  rw [hpub] at hver
  have hps : p = s := verifyPubKey_derivePubKey hver
  -- length forces `n = 16`
  have hplen : p.length = q.length - n := by
    rw [hptake]; simp
  have hn : n = 16 := by rw [hps, hslen] at hplen; omega
  -- byte-wise equation for the first 32 positions gives `K = K2`
  have hbyte : ∀ i, i < 32 → K.getD i 0 = K2.getD i 0 := by
    intro i hi
    have hqi : q.getD i 0 = s.getD i 0 := by
      have h1 : s.getD i 0 = (q.take (q.length - n)).getD i 0 := by
        rw [← hptake, hps]
      rw [h1, List.getD_eq_getElem (q.take (q.length - n)) 0
            (by simp [hqlen]; omega),
          List.getElem_take,
          List.getD_eq_getElem q 0 (by omega : i < q.length)]
    have hqform : q.getD i 0 =
        (cipher.getD i 0 + 256 - keystream K2 iv i % 256) % 256 := by
      rw [hq, vigDecrypt_getD _ _ _ _ (by omega)]
    have hcform : cipher.getD i 0 =
        ((padBlock s).getD i 0 + keystream K iv i) % 256 := by
      rw [hcipher]; unfold EncryptSecret
      rw [vigEncrypt_getD _ _ _ _ (by rw [padBlock_length_32 s hslen]; omega)]
    have hpad : (padBlock s).getD i 0 = s.getD i 0 :=
      padBlock_getD_left s i (by omega)
    have hks : keystream K iv i = K.getD i 0 + iv.getD (i % 16) 0 := by
      unfold keystream
      rw [Nat.mod_eq_of_lt (by omega : i < 32)]
    have hks2 : keystream K2 iv i = K2.getD i 0 + iv.getD (i % 16) 0 := by
      unfold keystream
      rw [Nat.mod_eq_of_lt (by omega : i < 32)]
    have hsi : s.getD i 0 < 256 := by
      rw [List.getD_eq_getElem _ _ (by omega)]
      exact hsb _ (List.getElem_mem _)
    have hKi : K.getD i 0 < 256 := by
      rw [List.getD_eq_getElem _ _ (by omega)]
      exact hKb _ (List.getElem_mem _)
    have hK2i : K2.getD i 0 < 256 := by
      rw [List.getD_eq_getElem _ _ (by omega)]
      exact hK2b _ (List.getElem_mem _)
    rw [hqform, hcform, hpad, hks, hks2] at hqi
    omega
  apply hne
  apply List.ext_getElem (by omega)
  intro i h1 h2
  have := hbyte i (by omega)
  rwa [List.getD_eq_getElem _ _ h1, List.getD_eq_getElem _ _ h2] at this

lemma checkDecryptionKey_wrong_key (K K2 : List Nat) (store : KeyStore)
    (ank : Bool) (hK : validKey K) (hK2 : validKey K2) (hne : K ≠ K2)
    (henc : encryptedUnder K store) (hne2 : store.cryptedKeys ≠ []) :
    CheckDecryptionKey store K2 ank = false := by
  obtain ⟨r, rs, hstore⟩ := List.exists_cons_of_ne_nil hne2
  obtain ⟨s, c, hvs, hr⟩ := henc r (by rw [hstore]; exact List.mem_cons_self r rs)
  have hrec : checkRecord K2 r = false := by
    rw [hr]; exact checkRecord_wrong_key K K2 s c hK hK2 hvs hne
  unfold CheckDecryptionKey
  rw [hstore]
  simp [hrec]

/-- Claim C1: For every keystore containing at least one encrypted key
record (all encrypted under a valid 32-byte master key `K`) and every
valid 32-byte master key `K2 ≠ K`, the verification step fails with
`WrongKey` (for either `accept_no_keys` policy), `verify_and_decrypt`
returns no mapping at all, and the program run prints no key lines on
standard output, reports the wrong-key error, and exits with code 2. -/
theorem C1_wrong_key_rejection
    (K K2 : List Nat) (store : KeyStore) (ank : Bool)
    (datadir hexstr : String) (rest : List String) (w : Wallet)
    (hK : validKey K) (hK2 : validKey K2) (hne : K ≠ K2)
    (henc : encryptedUnder K store) (hne2 : store.cryptedKeys ≠ [])
    (hhex : hexstr.length = 64) (hparse : ParseHex hexstr = K2)
    (hspk : selectSpkMan w = some store) :
    CheckDecryptionKey store K2 ank = false ∧
    verify_and_decrypt store K2 true = none ∧
    (runMain ⟨datadir :: hexstr :: rest, true, w⟩).exitCode = 2 ∧
    (runMain ⟨datadir :: hexstr :: rest, true, w⟩).stdoutLines = [] ∧
    (runMain ⟨datadir :: hexstr :: rest, true, w⟩).stderrLines = [wrongKeyMsg] := by
  have hcheck : ∀ b : Bool, CheckDecryptionKey store K2 b = false :=
    fun b => checkDecryptionKey_wrong_key K K2 store b hK hK2 hne henc hne2
  have hrun : runMain ⟨datadir :: hexstr :: rest, true, w⟩ =
      { exitCode := 2, stdoutLines := [], stderrLines := [wrongKeyMsg],
        masterKeyResidue := memory_cleanse K2 } := by
    unfold runMain
    simp [hhex, hspk, hparse, hcheck true]
  refine ⟨hcheck ank, ?_, ?_, ?_, ?_⟩
  · unfold verify_and_decrypt
    rw [hcheck true]
    simp
  · rw [hrun]
  · rw [hrun]
  · rw [hrun]

/-- Witness for C1 at a concrete store and key pair: one record encrypted
under the all-ones key, checked against the all-zeros key. -/
theorem C1_wrong_key_rejection_witness :
    CheckDecryptionKey ⟨[mkRecord (List.replicate 32 1) (List.replicate 32 7) true]⟩
      (List.replicate 32 0) true = false ∧
    verify_and_decrypt ⟨[mkRecord (List.replicate 32 1) (List.replicate 32 7) true]⟩
      (List.replicate 32 0) true = none ∧
    (runMain ⟨["d", "0000000000000000000000000000000000000000000000000000000000000000"],
        true,
        ⟨some ⟨[mkRecord (List.replicate 32 1) (List.replicate 32 7) true]⟩, none⟩⟩).exitCode = 2 ∧
    (runMain ⟨["d", "0000000000000000000000000000000000000000000000000000000000000000"],
        true,
        ⟨some ⟨[mkRecord (List.replicate 32 1) (List.replicate 32 7) true]⟩, none⟩⟩).stdoutLines = [] ∧
    (runMain ⟨["d", "0000000000000000000000000000000000000000000000000000000000000000"],
        true,
        ⟨some ⟨[mkRecord (List.replicate 32 1) (List.replicate 32 7) true]⟩, none⟩⟩).stderrLines = [wrongKeyMsg] :=
  C1_wrong_key_rejection (List.replicate 32 1) (List.replicate 32 0)
    ⟨[mkRecord (List.replicate 32 1) (List.replicate 32 7) true]⟩ true
    ("d") ("0000000000000000000000000000000000000000000000000000000000000000") [] _
    (by decide) (by decide) (by decide)
    (fun r hr => by
      rw [List.mem_singleton] at hr
      exact ⟨List.replicate 32 7, true, by decide, hr⟩)
    (by decide) (by decide) (by decide) rfl

/-- Claim C2: On every exit path of the program — usage error, load
failure, no-ScriptPubKeyMan failure, wrong-key failure, or success — the
buffer that held the master key contains no non-zero byte when the run
returns (it is empty on the paths where the key bytes were never
materialized, and explicitly overwritten with zeros on all others). -/
theorem C2_masterkey_zeroed (inp : ProgInput) :
    (runMain inp).masterKeyResidue.all (fun b => b == 0) = true := by
  have hz : ∀ buf : List Nat,
      (memory_cleanse buf).all (fun b => b == 0) = true := by
    intro buf
    simp [memory_cleanse, List.mem_replicate]
  obtain ⟨args, loadOk, w⟩ := inp
  rcases args with _ | ⟨d, args'⟩
  · simp [runMain]
  rcases args' with _ | ⟨hexstr, rest⟩
  · simp [runMain]
  unfold runMain
  dsimp only
  by_cases h1 : hexstr.length ≠ 64
  · simp [h1]
  rw [if_neg h1]
  cases loadOk
  · simp
  simp only [Bool.not_true, Bool.false_eq_true, if_false]
  rcases hsel : selectSpkMan w with _ | spk
  · exact hz _
  cases hC : CheckDecryptionKey spk (ParseHex hexstr) true <;>
    simp [hC, hz]

/-- Witness for C2 on a concrete successful run. -/
theorem C2_masterkey_zeroed_witness :
    (runMain ⟨["d", "0000000000000000000000000000000000000000000000000000000000000000"],
        true, ⟨some ⟨[]⟩, none⟩⟩).masterKeyResidue.all (fun b => b == 0) = true :=
  C2_masterkey_zeroed _

/-- Claim C3: With zero encrypted key records, the key check succeeds under
`accept_no_keys = true` (and `verify_and_decrypt` returns the empty
mapping), fails with `WrongKey` under `accept_no_keys = false`, and the
program (which passes `accept_no_keys = true`) proceeds to export,
printing no key lines, and exits 0. -/
theorem C3_empty_store_policy (mk : List Nat) (d hexstr : String)
    (rest : List String) (hhex : hexstr.length = 64) :
    CheckDecryptionKey ⟨[]⟩ mk true = true ∧
    CheckDecryptionKey ⟨[]⟩ mk false = false ∧
    verify_and_decrypt ⟨[]⟩ mk true = some [] ∧
    verify_and_decrypt ⟨[]⟩ mk false = none ∧
    (runMain ⟨d :: hexstr :: rest, true, ⟨some ⟨[]⟩, none⟩⟩).exitCode = 0 ∧
    (runMain ⟨d :: hexstr :: rest, true, ⟨some ⟨[]⟩, none⟩⟩).stdoutLines =
      [bannerMsg, doneMsg] := by
  refine ⟨rfl, rfl, rfl, rfl, ?_, ?_⟩ <;>
  · unfold runMain
    simp [hhex, selectSpkMan, CheckDecryptionKey, exportLines, GetKeys,
      sortLex, List.dedup]

/-- Witness for C3 at a concrete master key and argument vector. -/
theorem C3_empty_store_policy_witness :
    CheckDecryptionKey ⟨[]⟩ (List.replicate 32 0) true = true ∧
    CheckDecryptionKey ⟨[]⟩ (List.replicate 32 0) false = false ∧
    verify_and_decrypt ⟨[]⟩ (List.replicate 32 0) true = some [] ∧
    verify_and_decrypt ⟨[]⟩ (List.replicate 32 0) false = none ∧
    (runMain ⟨["d", "0000000000000000000000000000000000000000000000000000000000000000"],
        true, ⟨some ⟨[]⟩, none⟩⟩).exitCode = 0 ∧
    (runMain ⟨["d", "0000000000000000000000000000000000000000000000000000000000000000"],
        true, ⟨some ⟨[]⟩, none⟩⟩).stdoutLines = [bannerMsg, doneMsg] :=
  C3_empty_store_policy (List.replicate 32 0) ("d")
    ("0000000000000000000000000000000000000000000000000000000000000000") []
    (by decide)

/-- Claim C10: When the loaded wallet yields no `ScriptPubKeyMan` at all,
the program exits with code 1 (not the wrong-key code 2), prints the
error message on the error stream and no key lines on standard output,
and zeroes the master-key buffer. -/
theorem C10_no_spkman_exit1 (d hexstr : String) (rest : List String)
    (hhex : hexstr.length = 64) :
    (runMain ⟨d :: hexstr :: rest, true, ⟨none, none⟩⟩).exitCode = 1 ∧
    (runMain ⟨d :: hexstr :: rest, true, ⟨none, none⟩⟩).stderrLines =
      [noSpkManMsg] ∧
    (runMain ⟨d :: hexstr :: rest, true, ⟨none, none⟩⟩).stdoutLines = [] ∧
    (runMain ⟨d :: hexstr :: rest, true, ⟨none, none⟩⟩).masterKeyResidue =
      List.replicate (ParseHex hexstr).length 0 := by
  refine ⟨?_, ?_, ?_, ?_⟩ <;>
  · unfold runMain
    simp [hhex, selectSpkMan, memory_cleanse]

/-- Witness for C10 at a concrete argument vector. -/
theorem C10_no_spkman_exit1_witness :
    (runMain ⟨["d", "0000000000000000000000000000000000000000000000000000000000000000"],
        true, ⟨none, none⟩⟩).exitCode = 1 ∧
    (runMain ⟨["d", "0000000000000000000000000000000000000000000000000000000000000000"],
        true, ⟨none, none⟩⟩).stderrLines = [noSpkManMsg] ∧
    (runMain ⟨["d", "0000000000000000000000000000000000000000000000000000000000000000"],
        true, ⟨none, none⟩⟩).stdoutLines = [] ∧
    (runMain ⟨["d", "0000000000000000000000000000000000000000000000000000000000000000"],
        true, ⟨none, none⟩⟩).masterKeyResidue =
      List.replicate (ParseHex ("0000000000000000000000000000000000000000000000000000000000000000")).length 0 :=
  C10_no_spkman_exit1 ("d")
    ("0000000000000000000000000000000000000000000000000000000000000000") []
    (by decide)

/-- Claim C8: When the wallet exposes both a legacy and a descriptor key
manager, the program selects the legacy one; the descriptor manager is
consulted only when no legacy manager exists. -/
theorem C8_legacy_preferred (w : Wallet) (l : KeyStore) :
    (w.legacy = some l → selectSpkMan w = some l) ∧
    (w.legacy = none → selectSpkMan w = w.descriptor) := by
  constructor <;> intro h <;> simp [selectSpkMan, h]

/-- Witness for C8: a wallet carrying both managers selects the legacy
one. -/
theorem C8_legacy_preferred_witness :
    ((⟨some ⟨[]⟩, some ⟨[mkRecord (List.replicate 32 1) (List.replicate 32 7) true]⟩⟩ : Wallet).legacy =
        some ⟨[]⟩ →
      selectSpkMan ⟨some ⟨[]⟩, some ⟨[mkRecord (List.replicate 32 1) (List.replicate 32 7) true]⟩⟩ =
        some ⟨[]⟩) ∧
    ((⟨some ⟨[]⟩, some ⟨[mkRecord (List.replicate 32 1) (List.replicate 32 7) true]⟩⟩ : Wallet).legacy =
        none →
      selectSpkMan ⟨some ⟨[]⟩, some ⟨[mkRecord (List.replicate 32 1) (List.replicate 32 7) true]⟩⟩ =
        (⟨some ⟨[]⟩, some ⟨[mkRecord (List.replicate 32 1) (List.replicate 32 7) true]⟩⟩ : Wallet).descriptor) :=
  C8_legacy_preferred _ ⟨[]⟩

set_option maxRecDepth 10000 in
/-- Claim C9: The master-key argument is validated only for length, not for
hexadecimal content: the 64-character argument below contains the non-hex
character `X`, yet the program does not take the usage-error path — it
parses the argument with `ParseHex`, obtaining only 5 bytes of key
material (fewer than 32), and runs the decryption check with that short
key (here the check passes on an empty store and the run exits 0). -/
theorem C9_hex_content_not_validated :
    "0123456789X00000000000000000000000000000000000000000000000000000".length = 64 ∧
    'X' ∈ "0123456789X00000000000000000000000000000000000000000000000000000".data ∧
    hexDigitVal 'X' = none ∧
    ParseHex ("0123456789X00000000000000000000000000000000000000000000000000000") =
      [1, 35, 69, 103, 137] ∧
    (ParseHex ("0123456789X00000000000000000000000000000000000000000000000000000")).length < 32 ∧
    (runMain ⟨["d", "0123456789X00000000000000000000000000000000000000000000000000000"],
        true, ⟨some ⟨[]⟩, none⟩⟩).exitCode = 0 ∧
    (runMain ⟨["d", "0123456789X00000000000000000000000000000000000000000000000000000"],
        true, ⟨some ⟨[]⟩, none⟩⟩).stderrLines = [] ∧
    (runMain ⟨["d", "0123456789X00000000000000000000000000000000000000000000000000000"],
        true, ⟨some ⟨[]⟩, none⟩⟩).masterKeyResidue = [0, 0, 0, 0, 0] := by
  decide

/-! ## Round-trip lemmas for the positional number systems -/

lemma toLEDigits_zero (base n : Nat) : toLEDigits base 0 n = [] := rfl

lemma toLEDigits_succ (base f n : Nat) :
    toLEDigits base (f + 1) n =
      if n = 0 then [] else n % base :: toLEDigits base f (n / base) := rfl

lemma fromLEDigits_nil (base : Nat) : fromLEDigits base [] = 0 := rfl

lemma fromLEDigits_cons (base d : Nat) (rest : List Nat) :
    fromLEDigits base (d :: rest) = d + base * fromLEDigits base rest := rfl

lemma fromLE_toLE (base : Nat) (hbase : 2 ≤ base) :
    ∀ fuel n, n < base ^ fuel →
      fromLEDigits base (toLEDigits base fuel n) = n := by
  intro fuel
  induction fuel with
  | zero =>
    intro n hn
    simp [Nat.pow_zero] at hn
    simp [hn, toLEDigits_zero, fromLEDigits_nil]
  | succ f ih =>
    intro n hn
    rw [toLEDigits_succ]
    by_cases h0 : n = 0
    · simp [h0, fromLEDigits_nil]
    · rw [if_neg h0, fromLEDigits_cons]
      have hdiv : n / base < base ^ f := by
        rw [Nat.div_lt_iff_lt_mul (by omega)]
        rw [pow_succ] at hn
        omega
      rw [ih (n / base) hdiv, Nat.mod_add_div]

lemma fromLE_eq_zero (base : Nat) (hbase : 0 < base) :
    ∀ ds : List Nat, fromLEDigits base ds = 0 → ∀ d ∈ ds, d = 0 := by
  intro ds
  induction ds with
  | nil => simp
  | cons d rest ih =>
    intro h x hx
    rw [fromLEDigits_cons] at h
    have hz : base * fromLEDigits base rest = 0 := by omega
    have hr : fromLEDigits base rest = 0 := by
      rcases Nat.mul_eq_zero.mp hz with h' | h'
      · omega
      · exact h'
    rcases List.mem_cons.mp hx with hx | hx
    · omega
    · exact ih hr x hx

lemma toLE_fromLE (base : Nat) (hbase : 2 ≤ base) :
    ∀ (ds : List Nat) (fuel : Nat), ds.length ≤ fuel →
      (∀ d ∈ ds, d < base) → ds.getLast? ≠ some 0 →
      toLEDigits base fuel (fromLEDigits base ds) = ds := by
  intro ds
  induction ds with
  | nil =>
    intro fuel _ _ _
    rcases fuel with _ | f
    · rfl
    · rw [toLEDigits_succ, fromLEDigits_nil, if_pos rfl]
  | cons d rest ih =>
    intro fuel hlen hdig hlast
    rcases fuel with _ | f
    · simp at hlen
    rw [fromLEDigits_cons] at *
    by_cases h0 : d + base * fromLEDigits base rest = 0
    · -- then all digits are 0, contradicting the non-zero last digit
      exfalso
      have hall := fromLE_eq_zero base (by omega) (d :: rest)
        (by rw [fromLEDigits_cons]; exact h0)
      rcases List.eq_nil_or_concat rest with hr | ⟨l, a, hr⟩
      · subst hr
        simp at hlast
        exact hlast (hall d (by simp))
      · rw [List.concat_eq_append] at hr
        have ha : a = 0 := hall a (by rw [hr]; simp)
        rw [hr, show d :: (l ++ [a]) = (d :: l) ++ [a] by simp,
            List.getLast?_concat] at hlast
        exact hlast (by rw [ha])
    · rw [toLEDigits_succ, if_neg h0]
      have hd : d < base := hdig d (by simp)
      have hmod : (d + base * fromLEDigits base rest) % base = d := by
        rw [Nat.add_mul_mod_self_left, Nat.mod_eq_of_lt hd]
      have hdiv : (d + base * fromLEDigits base rest) / base =
          fromLEDigits base rest := by
        rw [Nat.add_mul_div_left _ _ (by omega : 0 < base),
            Nat.div_eq_of_lt hd, Nat.zero_add]
      have hrest : toLEDigits base f (fromLEDigits base rest) = rest := by
        apply ih f (by simpa using hlen) (fun x hx => hdig x (by simp [hx]))
        intro hc
        rcases List.eq_nil_or_concat rest with hr | ⟨l, a, hr⟩
        · rw [hr] at hc; simp at hc
        · rw [List.concat_eq_append] at hr
          rw [hr, List.getLast?_concat] at hc
          rw [hr, show d :: (l ++ [a]) = (d :: l) ++ [a] by simp,
              List.getLast?_concat] at hlast
          exact hlast hc
      rw [hmod, hdiv, hrest]

lemma toLE_digits_lt (base : Nat) (hbase : 0 < base) :
    ∀ fuel n d, d ∈ toLEDigits base fuel n → d < base := by
  intro fuel
  induction fuel with
  | zero => intro n d hd; rw [toLEDigits_zero] at hd; simp at hd
  | succ f ih =>
    intro n d hd
    rw [toLEDigits_succ] at hd
    by_cases h0 : n = 0
    · rw [if_pos h0] at hd; simp at hd
    · rw [if_neg h0] at hd
      rcases List.mem_cons.mp hd with h | h
      · rw [h]; exact Nat.mod_lt _ hbase
      · exact ih _ _ h

lemma toLE_getLast_ne_zero (base : Nat) (hbase : 2 ≤ base) :
    ∀ fuel n, n < base ^ fuel →
      (toLEDigits base fuel n).getLast? ≠ some 0 := by
  intro fuel
  induction fuel with
  | zero =>
    intro n hn
    simp [Nat.pow_zero] at hn
    simp [hn, toLEDigits_zero]
  | succ f ih =>
    intro n hn
    rw [toLEDigits_succ]
    by_cases h0 : n = 0
    · rw [if_pos h0]; simp
    · rw [if_neg h0]
      have hdiv : n / base < base ^ f := by
        rw [Nat.div_lt_iff_lt_mul (by omega)]
        rw [pow_succ] at hn
        omega
      rcases hrec : toLEDigits base f (n / base) with _ | ⟨x, xs⟩
      · -- single digit `n % base`, non-zero because `n / base = 0` and `n ≠ 0`
        have hdz : n / base = 0 := by
          by_contra hdz
          have hf : f ≠ 0 := by
            intro hf
            rw [hf] at hdiv
            simp [Nat.pow_zero] at hdiv
            omega
          rcases Nat.exists_eq_succ_of_ne_zero hf with ⟨g, rfl⟩
          rw [toLEDigits_succ, if_neg hdz] at hrec
          exact List.cons_ne_nil _ _ hrec
        have hm : n % base ≠ 0 := by
          have h2 := Nat.div_add_mod n base
          rw [hdz, Nat.mul_zero, Nat.zero_add] at h2
          omega
        simp [hm]
      · have hlast := ih (n / base) hdiv
        rw [hrec] at hlast
        rw [List.getLast?_cons_cons]
        exact hlast

lemma fromLE_lt (base : Nat) (_hbase : 2 ≤ base) :
    ∀ ds : List Nat, (∀ d ∈ ds, d < base) →
      fromLEDigits base ds < base ^ ds.length := by
  intro ds
  induction ds with
  | nil =>
    intro _
    rw [fromLEDigits_nil]
    simp
  | cons d rest ih =>
    intro h
    have hd : d < base := h d (by simp)
    have hr := ih (fun x hx => h x (by simp [hx]))
    rw [fromLEDigits_cons, List.length_cons, pow_succ]
    have h1 : base * fromLEDigits base rest + base ≤ base * base ^ rest.length := by
      have h2 := Nat.mul_le_mul_left base (Nat.succ_le_of_lt hr)
      rw [Nat.mul_succ] at h2
      exact h2
    have h3 : base ^ rest.length * base = base * base ^ rest.length :=
      Nat.mul_comm _ _
    omega

/-! ## Base-58 round trip -/

lemma b58Val_b58Char : ∀ d, d < 58 → b58Val (b58Char d) = some d := by decide

lemma b58Char_eq_one_iff : ∀ d, d < 58 → (b58Char d = '1' ↔ d = 0) := by decide

lemma filterMap_b58Val_map (ds : List Nat) (h : ∀ d ∈ ds, d < 58) :
    (ds.map b58Char).filterMap b58Val = ds := by
  induction ds with
  | nil => rfl
  | cons d rest ih =>
    rw [List.map_cons, List.filterMap_cons, b58Val_b58Char d (h d (by simp))]
    rw [ih (fun x hx => h x (by simp [hx]))]

lemma all_isSome_b58Val_map (ds : List Nat) (h : ∀ d ∈ ds, d < 58) :
    (ds.map b58Char).all (fun c => (b58Val c).isSome) = true := by
  rw [List.all_eq_true]
  intro c hc
  rw [List.mem_map] at hc
  obtain ⟨d, hd, rfl⟩ := hc
  rw [b58Val_b58Char d (h d hd)]
  rfl

/-- Base-58 decoding inverts base-58 encoding on byte strings of at most
40 bytes whose first byte is non-zero. -/
lemma decode_encode_base58 (xs : List Nat) (hne : xs ≠ [])
    (hhead : xs.head? ≠ some 0) (hbytes : ByteList xs)
    (hlen : xs.length ≤ 40) :
    DecodeBase58 (EncodeBase58 xs) = some xs := by
  obtain ⟨b, t, rfl⟩ := List.exists_cons_of_ne_nil hne
  have hb : b ≠ 0 := by simpa using hhead
  have htw : ((b :: t).takeWhile (fun x => x = 0)).length = 0 := by
    simp [List.takeWhile_cons, hb]
  set n := bytesToNatBE (b :: t) with hn
  have hrevlast : (b :: t).reverse.getLast? = some b := by
    rw [List.getLast?_reverse]; rfl
  have hnz : n ≠ 0 := by
    intro h
    exact hb (fromLE_eq_zero 256 (by omega) ((b :: t).reverse) h b
      (List.mem_reverse.mpr (by simp)))
  have hnlt : n < 256 ^ (b :: t).length := by
    have h1 := fromLE_lt 256 (by omega) ((b :: t).reverse)
      (fun d hd => hbytes d (List.mem_reverse.mp hd))
    rwa [List.length_reverse] at h1
  have hn58 : n < 58 ^ 64 :=
    Nat.lt_of_lt_of_le hnlt
      (Nat.le_trans (Nat.pow_le_pow_right (by omega) hlen)
        (by decide : (256:Nat) ^ 40 ≤ 58 ^ 64))
  set ds := toLEDigits 58 64 n with hds
  have hdslt : ∀ d ∈ ds, d < 58 :=
    fun d hd => toLE_digits_lt 58 (by omega) 64 n d hd
  have hdslast : ds.getLast? ≠ some 0 :=
    toLE_getLast_ne_zero 58 (by omega) 64 n hn58
  have hdsne : ds ≠ [] := by
    intro h
    have h64 : toLEDigits 58 64 n =
        if n = 0 then [] else n % 58 :: toLEDigits 58 63 (n / 58) := rfl
    rw [hds, h64, if_neg hnz] at h
    exact List.cons_ne_nil _ _ h
  obtain ⟨dl, rl, hrev⟩ := List.exists_cons_of_ne_nil
    (show ds.reverse ≠ [] by simpa using hdsne)
  have hdl_mem : dl ∈ ds := List.mem_reverse.mp (by rw [hrev]; simp)
  have hdl_last : ds.getLast? = some dl := by
    rw [← List.head?_reverse, hrev]; rfl
  have hdlne : dl ≠ 0 := fun h => hdslast (by rw [hdl_last, h])
  have hchar : ¬ b58Char dl = '1' :=
    fun h => hdlne ((b58Char_eq_one_iff dl (hdslt dl hdl_mem)).mp h)
  -- the encoded string is just the digit characters
  have henc : EncodeBase58 (b :: t) = String.mk (ds.reverse.map b58Char) := by
    unfold EncodeBase58
    rw [htw, ← hn, ← hds, List.replicate_zero, List.nil_append]
  rw [henc]
  -- decode: no leading `1` characters
  have hdata : (String.mk (ds.reverse.map b58Char)).data =
      ds.reverse.map b58Char := rfl
  have htw2 : ((ds.reverse.map b58Char).takeWhile (fun c => c = '1')).length = 0 := by
    rw [hrev, List.map_cons, List.takeWhile_cons]
    simp [hchar]
  have hrevlt : ∀ d ∈ ds.reverse, d < 58 :=
    fun d hd => hdslt d (List.mem_reverse.mp hd)
  have hall : ((ds.reverse.map b58Char).drop 0).all
      (fun c => (b58Val c).isSome) = true := by
    rw [List.drop_zero]
    exact all_isSome_b58Val_map ds.reverse hrevlt
  unfold DecodeBase58
  rw [hdata, htw2, if_pos hall, List.drop_zero,
      filterMap_b58Val_map ds.reverse hrevlt, List.reverse_reverse, hds,
      fromLE_toLE 58 (by omega) 64 n hn58, List.replicate_zero, List.nil_append]
  -- the byte expansion of `n` is the original byte string
  have hback : natToBytesBE n = b :: t := by
    unfold natToBytesBE
    rw [hn]
    unfold bytesToNatBE
    rw [toLE_fromLE 256 (by omega) ((b :: t).reverse) 40
        (by rw [List.length_reverse]; exact hlen)
        (fun d hd => hbytes d (List.mem_reverse.mp hd))
        (by rw [hrevlast]; simpa using hb),
      List.reverse_reverse]
  rw [hback]

/-! ## Base-58-check and WIF round trip -/

lemma checksum4_byteList (xs : List Nat) : ∀ b ∈ checksum4 xs, b < 256 := by
  intro b hb
  unfold checksum4 at hb
  simp only [List.mem_cons, List.not_mem_nil, or_false] at hb
  rcases hb with h | h | h | h <;> (rw [h]; exact Nat.mod_lt _ (by omega))

lemma checksum4_length (xs : List Nat) : (checksum4 xs).length = 4 := rfl

/-- Base-58-check decoding inverts base-58-check encoding on payloads of
at most 36 bytes whose first byte is non-zero. -/
lemma decodeCheck_encodeCheck (payload : List Nat) (hne : payload ≠ [])
    (hhead : payload.head? ≠ some 0) (hbytes : ByteList payload)
    (hlen : payload.length ≤ 36) :
    DecodeBase58Check (EncodeBase58Check payload) = some payload := by
  have hfull_ne : payload ++ checksum4 payload ≠ [] := by simp [hne]
  have hfull_head : (payload ++ checksum4 payload).head? ≠ some 0 := by
    obtain ⟨b, t, rfl⟩ := List.exists_cons_of_ne_nil hne
    simpa using hhead
  have hfull_bytes : ByteList (payload ++ checksum4 payload) := by
    intro x hx
    rcases List.mem_append.mp hx with h | h
    · exact hbytes x h
    · exact checksum4_byteList payload x h
  have hfull_len : (payload ++ checksum4 payload).length ≤ 40 := by
    rw [List.length_append, checksum4_length]; omega
  have hL : (payload ++ checksum4 payload).length - 4 = payload.length := by
    rw [List.length_append, checksum4_length]
    omega
  unfold EncodeBase58Check DecodeBase58Check
  rw [decode_encode_base58 _ hfull_ne hfull_head hfull_bytes hfull_len]
  show (if (payload ++ checksum4 payload).length < 4 then none
    else if (payload ++ checksum4 payload).drop
        ((payload ++ checksum4 payload).length - 4) =
        checksum4 ((payload ++ checksum4 payload).take
          ((payload ++ checksum4 payload).length - 4))
    then some ((payload ++ checksum4 payload).take
      ((payload ++ checksum4 payload).length - 4))
    else none) = some payload
  rw [hL, List.take_left, List.drop_left,
    if_neg (by rw [List.length_append, checksum4_length]; omega), if_pos rfl]

/-- Claim C6: For every valid triple of a 32-byte private scalar, a
compression flag, and a network version byte (non-zero, as for every
Bitcoin network), decoding the WIF string produced by `EncodeSecret`
reproduces exactly the original scalar and compression flag. -/
theorem C6_wif_round_trip (version : Nat) (secret : List Nat)
    (compressed : Bool) (hv0 : version ≠ 0) (hv : version < 256)
    (hslen : secret.length = 32) (hsb : ByteList secret) :
    DecodeSecret version (EncodeSecret version secret compressed) =
      some (secret, compressed) := by
  have hRT : DecodeBase58Check (EncodeBase58Check
      (version :: secret ++ (if compressed then [1] else []))) =
      some (version :: secret ++ (if compressed then [1] else [])) := by
    apply decodeCheck_encodeCheck
    · simp
    · simp [hv0]
    · intro x hx
      rcases List.mem_cons.mp hx with h | h
      · rw [h]; exact hv
      · rcases List.mem_append.mp h with h | h
        · exact hsb x h
        · cases compressed <;> (simp at h; try omega)
    · cases compressed <;> simp [hslen]
  unfold EncodeSecret DecodeSecret
  rw [hRT]
  cases compressed
  · simp [hslen]
  · have htk : List.take 32 (secret ++ [1]) = secret := by
      rw [show (32:Nat) = secret.length from hslen.symm]
      exact List.take_left _ _
    simp [hslen, List.getLast?_concat, htk]

/-- Witness for C6 at a concrete scalar, flag and version byte. -/
theorem C6_wif_round_trip_witness :
    DecodeSecret 239 (EncodeSecret 239 (List.replicate 32 7) true) =
      some (List.replicate 32 7, true) :=
  C6_wif_round_trip 239 (List.replicate 32 7) true (by decide) (by decide)
    (by decide) (by decide)

/-! ## The successful export path -/

/-- On valid arguments, a loaded wallet, a found `ScriptPubKeyMan` and an
accepted master key, the run reaches the export loop. -/
lemma runMain_success (d hexstr : String) (rest : List String) (w : Wallet)
    (spk : KeyStore) (hhex : hexstr.length = 64)
    (hspk : selectSpkMan w = some spk)
    (hck : CheckDecryptionKey spk (ParseHex hexstr) true = true) :
    runMain ⟨d :: hexstr :: rest, true, w⟩ =
      { exitCode := 0,
        stdoutLines := bannerMsg :: exportLines spk (ParseHex hexstr) ++ [doneMsg],
        stderrLines := exportWarnings spk (ParseHex hexstr),
        masterKeyResidue := memory_cleanse (ParseHex hexstr) } := by
  unfold runMain
  simp [hhex, hspk, hck]

/-! ## Sortedness of the key-identifier order -/

lemma lexLe_total : ∀ a b : List Nat, lexLe a b = true ∨ lexLe b a = true := by
  intro a
  induction a with
  | nil => intro b; left; rfl
  | cons x xs ih =>
    intro b
    cases b with
    | nil => right; rfl
    | cons y ys =>
      by_cases hxy : x < y
      · left; simp [lexLe, hxy]
      · by_cases hyx : y < x
        · right; simp [lexLe, hyx]
        · have hxy2 : x = y := by omega
          subst hxy2
          rcases ih ys with h | h
          · left; simp [lexLe, h]
          · right; simp [lexLe, h]

lemma insertLex_head? (x : List Nat) (l : List (List Nat)) :
    (insertLex x l).head? = some x ∨ (insertLex x l).head? = l.head? := by
  cases l with
  | nil => left; rfl
  | cons y ys =>
    by_cases h : lexLe x y = true
    · left; simp [insertLex, h]
    · right; simp [insertLex, h]

lemma chain'_insertLex (x : List Nat) :
    ∀ l, List.Chain' (fun a b => lexLe a b = true) l →
      List.Chain' (fun a b => lexLe a b = true) (insertLex x l) := by
  intro l
  induction l with
  | nil => intro _; simp [insertLex]
  | cons y ys ih =>
    intro hl
    by_cases h : lexLe x y = true
    · rw [show insertLex x (y :: ys) = x :: y :: ys by simp [insertLex, h]]
      exact List.chain'_cons.mpr ⟨h, hl⟩
    · rw [show insertLex x (y :: ys) = y :: insertLex x ys by simp [insertLex, h]]
      rw [List.chain'_cons']
      refine ⟨?_, ih hl.tail⟩
      intro z hz
      rcases insertLex_head? x ys with hh | hh
      · rw [hh] at hz
        simp at hz
        subst hz
        rcases lexLe_total x y with h2 | h2
        · exact absurd h2 h
        · exact h2
      · rw [hh] at hz
        cases ys with
        | nil => simp at hz
        | cons z2 zs =>
          simp at hz
          subst hz
          exact (List.chain'_cons.mp hl).1

lemma chain'_sortLex (l : List (List Nat)) :
    List.Chain' (fun a b => lexLe a b = true) (sortLex l) := by
  unfold sortLex
  induction l with
  | nil => simp
  | cons x xs ih => exact chain'_insertLex x _ ih

/-- Claim C4: A per-key retrieval failure never aborts the export: every key
identifier whose private key cannot be retrieved contributes exactly a
warning on the error stream and no line on standard output, the export
continues over the remaining keys, and the run exits 0. -/
theorem C4_per_key_failure_skipped (d hexstr : String) (rest : List String)
    (w : Wallet) (spk : KeyStore) (hhex : hexstr.length = 64)
    (hspk : selectSpkMan w = some spk)
    (hck : CheckDecryptionKey spk (ParseHex hexstr) true = true) :
    (runMain ⟨d :: hexstr :: rest, true, w⟩).exitCode = 0 ∧
    (runMain ⟨d :: hexstr :: rest, true, w⟩).stdoutLines =
      bannerMsg :: exportLines spk (ParseHex hexstr) ++ [doneMsg] ∧
    (runMain ⟨d :: hexstr :: rest, true, w⟩).stderrLines =
      exportWarnings spk (ParseHex hexstr) ∧
    exportLines spk (ParseHex hexstr) =
      (GetKeys spk).filterMap
        (fun kid => (GetKey spk (ParseHex hexstr) kid).map (keyLine kid)) ∧
    (∀ kid ∈ GetKeys spk, GetKey spk (ParseHex hexstr) kid = none →
      warnLine kid ∈ (runMain ⟨d :: hexstr :: rest, true, w⟩).stderrLines) := by
  rw [runMain_success d hexstr rest w spk hhex hspk hck]
  refine ⟨rfl, rfl, rfl, rfl, ?_⟩
  intro kid hkid hnone
  show warnLine kid ∈ exportWarnings spk (ParseHex hexstr)
  unfold exportWarnings
  rw [List.mem_filterMap]
  exact ⟨kid, hkid, by rw [hnone]; rfl⟩

set_option maxRecDepth 100000 in
/-- Witness for C4 on a concrete two-record store whose second record
holds an encrypted all-zero scalar: it passes the Verifier's
stored-identity check (the master key is accepted), but its public key
cannot be re-derived at export time, so its key is not retrievable — the
run emits exactly its warning on the error stream, still exports the
other key, and exits 0. -/
theorem C4_per_key_failure_skipped_witness :
    ((runMain ⟨["d", "0101010101010101010101010101010101010101010101010101010101010101"],
        true, ⟨some ⟨[mkRecord (List.replicate 32 1) (List.replicate 32 7) true,
          mkRecord (List.replicate 32 1) (List.replicate 32 0) true]⟩, none⟩⟩).exitCode = 0 ∧
    (runMain ⟨["d", "0101010101010101010101010101010101010101010101010101010101010101"],
        true, ⟨some ⟨[mkRecord (List.replicate 32 1) (List.replicate 32 7) true,
          mkRecord (List.replicate 32 1) (List.replicate 32 0) true]⟩, none⟩⟩).stdoutLines =
      bannerMsg :: exportLines ⟨[mkRecord (List.replicate 32 1) (List.replicate 32 7) true,
          mkRecord (List.replicate 32 1) (List.replicate 32 0) true]⟩
        (ParseHex ("0101010101010101010101010101010101010101010101010101010101010101")) ++ [doneMsg] ∧
    (runMain ⟨["d", "0101010101010101010101010101010101010101010101010101010101010101"],
        true, ⟨some ⟨[mkRecord (List.replicate 32 1) (List.replicate 32 7) true,
          mkRecord (List.replicate 32 1) (List.replicate 32 0) true]⟩, none⟩⟩).stderrLines =
      exportWarnings ⟨[mkRecord (List.replicate 32 1) (List.replicate 32 7) true,
          mkRecord (List.replicate 32 1) (List.replicate 32 0) true]⟩
        (ParseHex ("0101010101010101010101010101010101010101010101010101010101010101")) ∧
    exportLines ⟨[mkRecord (List.replicate 32 1) (List.replicate 32 7) true,
          mkRecord (List.replicate 32 1) (List.replicate 32 0) true]⟩
        (ParseHex ("0101010101010101010101010101010101010101010101010101010101010101")) =
      (GetKeys ⟨[mkRecord (List.replicate 32 1) (List.replicate 32 7) true,
          mkRecord (List.replicate 32 1) (List.replicate 32 0) true]⟩).filterMap
        (fun kid => (GetKey ⟨[mkRecord (List.replicate 32 1) (List.replicate 32 7) true,
            mkRecord (List.replicate 32 1) (List.replicate 32 0) true]⟩
          (ParseHex ("0101010101010101010101010101010101010101010101010101010101010101")) kid).map
            (keyLine kid)) ∧
    (∀ kid ∈ GetKeys ⟨[mkRecord (List.replicate 32 1) (List.replicate 32 7) true,
          mkRecord (List.replicate 32 1) (List.replicate 32 0) true]⟩,
      GetKey ⟨[mkRecord (List.replicate 32 1) (List.replicate 32 7) true,
          mkRecord (List.replicate 32 1) (List.replicate 32 0) true]⟩
        (ParseHex ("0101010101010101010101010101010101010101010101010101010101010101")) kid = none →
      warnLine kid ∈ (runMain ⟨["d", "0101010101010101010101010101010101010101010101010101010101010101"],
        true, ⟨some ⟨[mkRecord (List.replicate 32 1) (List.replicate 32 7) true,
          mkRecord (List.replicate 32 1) (List.replicate 32 0) true]⟩, none⟩⟩).stderrLines)) ∧
    CheckDecryptionKey ⟨[mkRecord (List.replicate 32 1) (List.replicate 32 7) true,
        mkRecord (List.replicate 32 1) (List.replicate 32 0) true]⟩
      (ParseHex ("0101010101010101010101010101010101010101010101010101010101010101")) true = true ∧
    GetKey ⟨[mkRecord (List.replicate 32 1) (List.replicate 32 7) true,
        mkRecord (List.replicate 32 1) (List.replicate 32 0) true]⟩
      (ParseHex ("0101010101010101010101010101010101010101010101010101010101010101"))
      (keyIdOf (mkRecord (List.replicate 32 1) (List.replicate 32 0) true)) = none ∧
    warnLine (keyIdOf (mkRecord (List.replicate 32 1) (List.replicate 32 0) true)) ∈
      (runMain ⟨["d", "0101010101010101010101010101010101010101010101010101010101010101"],
        true, ⟨some ⟨[mkRecord (List.replicate 32 1) (List.replicate 32 7) true,
          mkRecord (List.replicate 32 1) (List.replicate 32 0) true]⟩, none⟩⟩).stderrLines ∧
    exportLines ⟨[mkRecord (List.replicate 32 1) (List.replicate 32 7) true,
        mkRecord (List.replicate 32 1) (List.replicate 32 0) true]⟩
      (ParseHex ("0101010101010101010101010101010101010101010101010101010101010101")) ≠ [] :=
  ⟨C4_per_key_failure_skipped ("d")
    ("0101010101010101010101010101010101010101010101010101010101010101") []
    ⟨some ⟨[mkRecord (List.replicate 32 1) (List.replicate 32 7) true,
      mkRecord (List.replicate 32 1) (List.replicate 32 0) true]⟩, none⟩
    ⟨[mkRecord (List.replicate 32 1) (List.replicate 32 7) true,
      mkRecord (List.replicate 32 1) (List.replicate 32 0) true]⟩
    (by decide) (by decide) (by decide),
   by decide, by decide, by decide, by decide⟩

/-- Claim C5: A run in which the master key is accepted and at least one key
is exported exits 0 and prints the banner line, then exactly the export
lines — each of the form `KeyID: <hex>  WIF: <string>` for one retrieved
key — then the completion line, on standard output. -/
theorem C5_success_output_format (d hexstr : String) (rest : List String)
    (w : Wallet) (spk : KeyStore) (hhex : hexstr.length = 64)
    (hspk : selectSpkMan w = some spk)
    (hck : CheckDecryptionKey spk (ParseHex hexstr) true = true)
    (hsome : exportLines spk (ParseHex hexstr) ≠ []) :
    (runMain ⟨d :: hexstr :: rest, true, w⟩).exitCode = 0 ∧
    (runMain ⟨d :: hexstr :: rest, true, w⟩).stdoutLines =
      bannerMsg :: exportLines spk (ParseHex hexstr) ++ [doneMsg] ∧
    exportLines spk (ParseHex hexstr) ≠ [] ∧
    ∀ line ∈ exportLines spk (ParseHex hexstr), ∃ kid sk,
      kid ∈ GetKeys spk ∧ GetKey spk (ParseHex hexstr) kid = some sk ∧
      line = "KeyID: " ++ keyIdToString kid ++ "  WIF: " ++
        EncodeSecret regtestSecretVersion sk.1 sk.2 := by
  rw [runMain_success d hexstr rest w spk hhex hspk hck]
  refine ⟨rfl, rfl, hsome, ?_⟩
  intro line hline
  unfold exportLines at hline
  rw [List.mem_filterMap] at hline
  obtain ⟨kid, hkid, hmap⟩ := hline
  rcases hG : GetKey spk (ParseHex hexstr) kid with _ | sk
  · rw [hG] at hmap; simp at hmap
  · rw [hG, Option.map_some'] at hmap
    exact ⟨kid, sk, hkid, hG, (Option.some.inj hmap).symm⟩

set_option maxRecDepth 40000 in
/-- Witness for C5 on a concrete one-record store. -/
theorem C5_success_output_format_witness :
    (runMain ⟨["d", "0101010101010101010101010101010101010101010101010101010101010101"],
        true, ⟨some ⟨[mkRecord (List.replicate 32 1) (List.replicate 32 7) true]⟩, none⟩⟩).exitCode = 0 ∧
    (runMain ⟨["d", "0101010101010101010101010101010101010101010101010101010101010101"],
        true, ⟨some ⟨[mkRecord (List.replicate 32 1) (List.replicate 32 7) true]⟩, none⟩⟩).stdoutLines =
      bannerMsg :: exportLines ⟨[mkRecord (List.replicate 32 1) (List.replicate 32 7) true]⟩
        (ParseHex ("0101010101010101010101010101010101010101010101010101010101010101")) ++ [doneMsg] ∧
    exportLines ⟨[mkRecord (List.replicate 32 1) (List.replicate 32 7) true]⟩
      (ParseHex ("0101010101010101010101010101010101010101010101010101010101010101")) ≠ [] ∧
    ∀ line ∈ exportLines ⟨[mkRecord (List.replicate 32 1) (List.replicate 32 7) true]⟩
        (ParseHex ("0101010101010101010101010101010101010101010101010101010101010101")), ∃ kid sk,
      kid ∈ GetKeys ⟨[mkRecord (List.replicate 32 1) (List.replicate 32 7) true]⟩ ∧
      GetKey ⟨[mkRecord (List.replicate 32 1) (List.replicate 32 7) true]⟩
        (ParseHex ("0101010101010101010101010101010101010101010101010101010101010101")) kid = some sk ∧
      line = "KeyID: " ++ keyIdToString kid ++ "  WIF: " ++
        EncodeSecret regtestSecretVersion sk.1 sk.2 :=
  C5_success_output_format ("d")
    ("0101010101010101010101010101010101010101010101010101010101010101") []
    ⟨some ⟨[mkRecord (List.replicate 32 1) (List.replicate 32 7) true]⟩, none⟩
    ⟨[mkRecord (List.replicate 32 1) (List.replicate 32 7) true]⟩
    (by decide) (by decide) (by decide) (by decide)

/-- Claim C7: The exporter emits the key lines in the `GetKeys` order, which
is ascending key-identifier byte order (adjacent elements are related by
the byte-lexicographic order), and a run is a pure function of its input:
two runs over the same store produce identical output. -/
theorem C7_sorted_key_order (d hexstr : String) (rest : List String)
    (w : Wallet) (spk : KeyStore) (hhex : hexstr.length = 64)
    (hspk : selectSpkMan w = some spk)
    (hck : CheckDecryptionKey spk (ParseHex hexstr) true = true) :
    (runMain ⟨d :: hexstr :: rest, true, w⟩).stdoutLines =
      bannerMsg :: exportLines spk (ParseHex hexstr) ++ [doneMsg] ∧
    exportLines spk (ParseHex hexstr) =
      (GetKeys spk).filterMap
        (fun kid => (GetKey spk (ParseHex hexstr) kid).map (keyLine kid)) ∧
    List.Chain' (fun a b => lexLe a b = true) (GetKeys spk) ∧
    runMain ⟨d :: hexstr :: rest, true, w⟩ =
      runMain ⟨d :: hexstr :: rest, true, w⟩ :=
  ⟨by rw [runMain_success d hexstr rest w spk hhex hspk hck], rfl,
    chain'_sortLex _, rfl⟩

set_option maxRecDepth 40000 in
/-- Witness for C7 on a concrete two-record store. -/
theorem C7_sorted_key_order_witness :
    (runMain ⟨["d", "0101010101010101010101010101010101010101010101010101010101010101"],
        true, ⟨some ⟨[mkRecord (List.replicate 32 1) (List.replicate 32 7) true,
          mkRecord (List.replicate 32 1) (List.replicate 32 9) false]⟩, none⟩⟩).stdoutLines =
      bannerMsg :: exportLines ⟨[mkRecord (List.replicate 32 1) (List.replicate 32 7) true,
          mkRecord (List.replicate 32 1) (List.replicate 32 9) false]⟩
        (ParseHex ("0101010101010101010101010101010101010101010101010101010101010101")) ++ [doneMsg] ∧
    exportLines ⟨[mkRecord (List.replicate 32 1) (List.replicate 32 7) true,
        mkRecord (List.replicate 32 1) (List.replicate 32 9) false]⟩
      (ParseHex ("0101010101010101010101010101010101010101010101010101010101010101")) =
      (GetKeys ⟨[mkRecord (List.replicate 32 1) (List.replicate 32 7) true,
          mkRecord (List.replicate 32 1) (List.replicate 32 9) false]⟩).filterMap
        (fun kid => (GetKey ⟨[mkRecord (List.replicate 32 1) (List.replicate 32 7) true,
            mkRecord (List.replicate 32 1) (List.replicate 32 9) false]⟩
          (ParseHex ("0101010101010101010101010101010101010101010101010101010101010101")) kid).map
            (keyLine kid)) ∧
    List.Chain' (fun a b => lexLe a b = true)
      (GetKeys ⟨[mkRecord (List.replicate 32 1) (List.replicate 32 7) true,
        mkRecord (List.replicate 32 1) (List.replicate 32 9) false]⟩) ∧
    runMain ⟨["d", "0101010101010101010101010101010101010101010101010101010101010101"],
        true, ⟨some ⟨[mkRecord (List.replicate 32 1) (List.replicate 32 7) true,
          mkRecord (List.replicate 32 1) (List.replicate 32 9) false]⟩, none⟩⟩ =
      runMain ⟨["d", "0101010101010101010101010101010101010101010101010101010101010101"],
        true, ⟨some ⟨[mkRecord (List.replicate 32 1) (List.replicate 32 7) true,
          mkRecord (List.replicate 32 1) (List.replicate 32 9) false]⟩, none⟩⟩ :=
  C7_sorted_key_order ("d")
    ("0101010101010101010101010101010101010101010101010101010101010101") []
    ⟨some ⟨[mkRecord (List.replicate 32 1) (List.replicate 32 7) true,
      mkRecord (List.replicate 32 1) (List.replicate 32 9) false]⟩, none⟩
    ⟨[mkRecord (List.replicate 32 1) (List.replicate 32 7) true,
      mkRecord (List.replicate 32 1) (List.replicate 32 9) false]⟩
    (by decide) (by decide) (by decide)

end WalletDump
